import Mathlib

/-!
Verification of the Address Allocation & Peer Configuration engine of
CUCnet-Bot (`src/wireguard.py`), shallowly embedded in Lean 4.

Modelling conventions:
* The SQLite table of profiles is represented by the list of
  `wg_ip_address` strings of its `is_active = 1` rows (`dbActive`): this is
  exactly the data `get_next_ip` reads from the database.
* The WireGuard artifact `/etc/wireguard/wg0.conf` is represented by its
  list of lines (Python reads the whole file and immediately
  `split('\n')`s it); `none` stands for a missing file.
* Python `ipaddress.ip_address` is modelled for IPv4 (strict dotted-quad,
  no leading zeros, as in Python >= 3.9.5).  IPv6 strings, which Python
  would also accept, can never equal a `10.8.x.y` pool candidate; treating
  them as unparseable only removes elements from the used-set that cannot
  collide with any candidate, so the allocator's outcome is unchanged.
* The uncaught `IndexError` that Python raises on an `AllowedIPs` line
  without `=` (`line.split('=')[1]`) is modelled as `Except.error ()`.
-/

/-- Python's substring test `pat in s`, on lists of characters:
`hasPrefixCL p l` is `True` iff `p` is a prefix of `l`. -/
def hasPrefixCL : List Char → List Char → Bool
  | [], _ => true
  | _ :: _, [] => false
  | p :: ps, c :: cs => p == c && hasPrefixCL ps cs

/-- `hasSubstrCL pat l` is `True` iff `pat` occurs contiguously in `l`. -/
def hasSubstrCL (pat : List Char) : List Char → Bool
  | [] => pat.isEmpty
  | c :: cs => hasPrefixCL pat (c :: cs) || hasSubstrCL pat cs

/-- Python's `pat in s` on strings. -/
def strContains (s pat : String) : Bool :=
  hasSubstrCL pat.toList s.toList

/-- Python `s.split(sep)` for a one-character separator: splits at every
occurrence, keeping empty parts (never merging separators). -/
def splitCharCL (sep : Char) : List Char → List (List Char)
  | [] => [[]]
  | c :: cs =>
    if c == sep then [] :: splitCharCL sep cs
    else
      match splitCharCL sep cs with
      | [] => [[c]]
      | h :: t => (c :: h) :: t

/-- Python `s.split(sep)` on strings, single-character separator (the
source only splits on `'='`, `'.'`, `'/'` and `'\n'`). -/
def pySplit (sep : Char) (s : String) : List String :=
  (splitCharCL sep s.toList).map (fun l => ⟨l⟩)

/-- The characters Python `str.strip()` removes. -/
def isPySpace (c : Char) : Bool :=
  c == ' ' || c == '\t' || c == '\n' || c == '\r'
    || c == '\x0b' || c == '\x0c'

/-- Python `s.strip()`: drop leading and trailing whitespace. -/
def pyStrip (s : String) : String :=
  ⟨((s.toList.dropWhile isPySpace).reverse.dropWhile isPySpace).reverse⟩

/-- Python `s.startswith(pre)`. -/
def pyStartsWith (s pre : String) : Bool :=
  hasPrefixCL pre.toList s.toList

/-- An IPv4 address as four octets (each `< 256` for well-formed
addresses; the structure itself does not enforce the bound). -/
structure IPv4 where
  o1 : Nat
  o2 : Nat
  o3 : Nat
  o4 : Nat
deriving DecidableEq, Repr

/-- Parse one decimal octet the way `ipaddress.IPv4Address` does:
only digits, no empty string, no leading zero (Python >= 3.9.5),
value at most 255. -/
def parseOctet (s : String) : Option Nat :=
  let cs := s.toList
  if cs.isEmpty then none
  else if cs.any (fun c => !c.isDigit) then none
  else if cs.length > 1 && cs.headD '0' == '0' then none
  else
    let n := cs.foldl (fun acc c => acc * 10 + (c.toNat - 48)) 0
    if n ≤ 255 then some n else none

/-- Python `ipaddress.ip_address(s)` for IPv4: exactly four octets
separated by dots.  Returns `none` where Python raises `ValueError`. -/
def parseIPv4 (s : String) : Option IPv4 :=
  match pySplit '.' s with
  | [a, b, c, d] =>
    match parseOctet a, parseOctet b, parseOctet c, parseOctet d with
    | some x, some y, some z, some w => some ⟨x, y, z, w⟩
    | _, _, _, _ => none
  | _ => none

/-- Python `str(ip)` for an `IPv4Address`: canonical dotted form. -/
def renderIPv4 (ip : IPv4) : String :=
  toString ip.o1 ++ "." ++ toString ip.o2 ++ "." ++ toString ip.o3
    ++ "." ++ toString ip.o4

/-- The two profile categories of `get_next_ip` (`'website'` vs the
`else` branch, `'personal'`). -/
inductive ProfileType
  | website
  | personal
deriving DecidableEq, Repr

/-- The third octets of the `/24` blocks scanned for each category:
`range(10, 26)` for `website`, `range(100, 256)` for `personal`
(`src/wireguard.py` lines 29-38). -/
def poolNetworks : ProfileType → List Nat
  | .website => List.range' 10 16
  | .personal => List.range' 100 156

/-- `network.hosts()` of `10.8.x.0/24`: hosts `10.8.x.1 .. 10.8.x.254`
in ascending order, network (`.0`) and broadcast (`.255`) excluded. -/
def hostsOfBlock (x : Nat) : List IPv4 :=
  (List.range' 1 254).map (fun d => ⟨10, 8, x, d⟩)

/-- The full candidate pool of a category, in scan order
(`for network in networks: for ip in network.hosts()`). -/
def poolHosts (t : ProfileType) : List IPv4 :=
  (poolNetworks t).flatMap hostsOfBlock

/-- The used-address strings harvested from the artifact
(`src/wireguard.py` lines 44-53): every line whose stripped form starts
with `AllowedIPs` contributes `line.split('=')[1].strip().split('/')[0]`.
`Except.error ()` models the uncaught `IndexError` when such a line has
no `=` at all. -/
def extractUsedIPs : List String → Except Unit (List String)
  | [] => .ok []
  | line :: rest =>
    if pyStartsWith (pyStrip line) "AllowedIPs" then
      match (pySplit '=' line).get? 1 with
      | none => .error ()
      | some part =>
        match extractUsedIPs rest with
        | .error e => .error e
        | .ok tl => .ok ((pySplit '/' (pyStrip part)).headD "" :: tl)
    else extractUsedIPs rest

/-- `used_ip_objects` (lines 55-61): parse every used string, silently
skipping those raising `ValueError`.  Membership in this list is what the
Python set membership test computes. -/
def usedIpObjects (usedIps : List String) : List IPv4 :=
  usedIps.filterMap parseIPv4

/-- The scan loop (lines 63-72): first pool candidate not among the used
IP objects whose rendered form also has no `is_active = 1` database row
(`SELECT COUNT(*) ... WHERE wg_ip_address = ? AND is_active = 1`). -/
def findFreeIp (dbActive : List String) (used : List IPv4) :
    List IPv4 → Option IPv4
  | [] => none
  | ip :: rest =>
    if ip ∈ used then findFreeIp dbActive used rest
    else if renderIPv4 ip ∈ dbActive then findFreeIp dbActive used rest
    else some ip

/-- `get_next_ip` after the used-address strings have been gathered:
`dbActive` are the active rows' addresses, `cfgIPs` the strings harvested
from the artifact (Python unions both into the set `used_ips`). -/
def getNextIpFrom (dbActive cfgIPs : List String) (t : ProfileType) :
    Option IPv4 :=
  findFreeIp dbActive (usedIpObjects (dbActive ++ cfgIPs)) (poolHosts t)

/-- `get_next_ip(profile_type)` (lines 24-75).  `cfg = none` models a
missing artifact (`check_wg_config_exists()` false: no artifact IPs are
collected).  Returns `ok (some s)` for a granted address string,
`ok none` where Python returns `None`, `error ()` where Python raises. -/
def get_next_ip (dbActive : List String) (cfg : Option (List String))
    (t : ProfileType) : Except Unit (Option String) :=
  match cfg with
  | none => .ok ((getNextIpFrom dbActive [] t).map renderIPv4)
  | some lines =>
    match extractUsedIPs lines with
    | .error e => .error e
    | .ok cfgIPs => .ok ((getNextIpFrom dbActive cfgIPs t).map renderIPv4)

/-- `generate_wireguard_config` (lines 77-90).  The first three arguments
are the `config.py` environment constants (`WG_SERVER_IP`,
`WG_SERVER_PORT`, `WG_SERVER_PUBLIC_KEY`) that the source reads at module
level; the remaining four are the function's own parameters, in source
order. -/
def generate_wireguard_config (serverIp serverPort serverPubKey : String)
    (profile_name profile_type private_key ip_address : String) : String :=
  "[Interface]\nAddress = " ++ ip_address ++ "/24\nPrivateKey = "
    ++ private_key ++ "\nDNS = 10.8.0.1\n\n[Peer]\nPublicKey = "
    ++ serverPubKey ++ "\nEndpoint = " ++ serverIp ++ ":" ++ serverPort
    ++ "\nAllowedIPs = 10.8.0.0/16\nPersistentKeepalive = 25\n"

/-- The observable operations on the artifact file performed by the peer
mutators, in order.  `appendLive` is the in-place shell append
`sudo bash -c 'echo "..." >> /etc/wireguard/wg0.conf'`; `writeTemp` is a
`tempfile.NamedTemporaryFile` write of the given lines (each line
serialized with a trailing newline); `replaceLive` is
`sudo cp temp wg0.conf`; `chmodLive` is `sudo chmod 600 wg0.conf`;
`reloadCmd` is the daemon reload `wg addconf wg0 <(wg-quick strip wg0)`. -/
inductive FileOp
  | appendLive (text : String)
  | writeTemp (lines : List String)
  | replaceLive
  | chmodLive
  | reloadCmd
deriving DecidableEq, Repr

/-- The peer stanza text built by `add_peer_to_server` (line 101). -/
def peerConfigText (public_key ip_address profile_name : String) : String :=
  "\n# Profile: " ++ profile_name ++ "\n[Peer]\nPublicKey = " ++ public_key
    ++ "\nAllowedIPs = " ++ ip_address ++ "/32\n"

/-- `add_peer_to_server` (lines 92-116): returns the boolean result and
the trace of artifact-file operations.  `cfgExists` is the outcome of
`check_wg_config_exists()`.  On success the operation appends
`peer_config` (plus the newline `echo` adds) directly to the live config
and then runs the reload command. -/
def add_peer_to_server (cfgExists : Bool)
    (public_key ip_address profile_name : String) : Bool × List FileOp :=
  if !cfgExists then (false, [])
  else
    (true,
     [FileOp.appendLive
        (peerConfigText public_key ip_address profile_name ++ "\n"),
      FileOp.reloadCmd])

/-- The loop state of the peer-removal filter in
`remove_peer_from_server` (lines 140-144): accumulated kept lines, the
`in_peer_section`, `peer_removed` and `skip_section` flags, and the lines
of the peer section currently being scanned.  (Python stores each line
with a trailing `'\n'` appended; the serialization to file text appends
`'\n'` to every line uniformly, so the state keeps raw lines.) -/
structure RemoveState where
  newLines : List String
  inPeer : Bool
  removed : Bool
  current : List String
  skip : Bool
deriving DecidableEq, Repr

/-- One iteration of the `for line in lines` loop of
`remove_peer_from_server` (lines 146-176), transcribed branch by
branch. -/
def processLine (pk : String) (st : RemoveState) (line : String) :
    RemoveState :=
  if pyStartsWith (pyStrip line) "[Peer]" then
    let st1 :=
      if st.inPeer then
        { st with
          newLines := st.newLines ++ (if st.skip then [] else st.current),
          current := [], skip := false }
      else st
    { st1 with inPeer := true, current := st1.current ++ [line],
               skip := false }
  else if st.inPeer then
    let st1 := { st with current := st.current ++ [line] }
    let st2 :=
      if pyStartsWith (pyStrip line) "PublicKey" && strContains line pk then
        { st1 with skip := true, removed := true }
      else st1
    if pyStrip line == "" ||
        (pyStartsWith (pyStrip line) "[" &&
          !pyStartsWith (pyStrip line) "[Peer]") then
      let st3 :=
        { st2 with
          newLines := st2.newLines ++ (if st2.skip then [] else st2.current),
          inPeer := false, current := [], skip := false }
      if pyStrip line != "" then
        { st3 with newLines := st3.newLines ++ [line] }
      else st3
    else st2
  else { st with newLines := st.newLines ++ [line] }

/-- The initial loop state (all accumulators empty, all flags false). -/
def initRemoveState : RemoveState := ⟨[], false, false, [], false⟩

/-- The pure core of `remove_peer_from_server` (lines 140-200): run the
filter over the artifact lines, flush a trailing unterminated peer
section (lines 179-181), and return the kept lines when a peer was
removed, `none` when no `PublicKey` line matched (`peer_removed` stays
false and the function returns `False` without writing). -/
def removePeerLines (pk : String) (lines : List String) :
    Option (List String) :=
  let fin := lines.foldl (processLine pk) initRemoveState
  let fin :=
    if fin.inPeer then
      if fin.skip then fin
      else { fin with newLines := fin.newLines ++ fin.current }
    else fin
  if fin.removed then some fin.newLines else none

/-- `remove_peer_from_server` (lines 118-207): boolean result plus the
trace of artifact-file operations.  The temp-file write, the `cp` over
the live config and the `chmod` happen only under `if peer_removed:`
(lines 183-197); on the not-found path no file operation occurs. -/
def remove_peer_from_server (cfgExists : Bool) (pk : String)
    (lines : List String) : Bool × List FileOp :=
  if !cfgExists then (false, [])
  else
    match removePeerLines pk lines with
    | some nl =>
      (true, [FileOp.writeTemp nl, FileOp.replaceLive, FileOp.chmodLive])
    | none => (false, [])

/-- A well-formed peer stanza of the artifact, at the line level:
`header` is its `[Peer]` marker line, `body` its directive lines, and the
stanza is terminated by a blank line (appended by `renderStanza`). -/
structure PeerStanza where
  header : String
  body : List String
deriving DecidableEq, Repr

/-- The lines of a stanza as they appear in the artifact. -/
def renderStanza (s : PeerStanza) : List String :=
  s.header :: (s.body ++ [""])

/-- The removal filter's match test, lifted to a stanza: some body line
is a `PublicKey` directive whose raw text contains `pk` as a substring
(that is exactly the test at line 162 of the source). -/
def stanzaMatches (pk : String) (s : PeerStanza) : Bool :=
  s.body.any
    (fun l => pyStartsWith (pyStrip l) "PublicKey" && strContains l pk)

/-- A directive line: not blank, not a section marker. -/
def wfBodyLine (l : String) : Prop :=
  pyStrip l ≠ "" ∧ pyStartsWith (pyStrip l) "[" = false ∧
    pyStartsWith (pyStrip l) "[Peer]" = false

/-- A well-formed stanza: the header is a `[Peer]` marker and every body
line is a directive line. -/
def wfStanza (s : PeerStanza) : Prop :=
  pyStartsWith (pyStrip s.header) "[Peer]" = true ∧
    ∀ l ∈ s.body, wfBodyLine l

/-- A well-formed preamble line: anything that is not a `[Peer]` marker
(the filter copies such lines through unchanged while outside a peer
section). -/
def wfPreambleLine (l : String) : Prop :=
  pyStartsWith (pyStrip l) "[Peer]" = false

instance (l : String) : Decidable (wfBodyLine l) := by
  unfold wfBodyLine
  infer_instance

instance (s : PeerStanza) : Decidable (wfStanza s) := by
  unfold wfStanza
  infer_instance

instance (l : String) : Decidable (wfPreambleLine l) := by
  unfold wfPreambleLine
  infer_instance

/-- Successive allocations within one category, each committed to the
database before the next call (the caller inserts the returned address
as an `is_active = 1` row): the list of addresses granted by `n`
consecutive `get_next_ip` calls starting from active rows `db`. -/
def allocateSeq (cfg : Option (List String)) (t : ProfileType) :
    Nat → List String → List String
  | 0, _ => []
  | n + 1, db =>
    match get_next_ip db cfg t with
    | .ok (some s) => s :: allocateSeq cfg t n (s :: db)
    | _ => []

/-! ### Supporting lemmas: splitting and parse/render round-trip -/

theorem splitCharCL_not_mem (sep : Char) (l : List Char) (h : sep ∉ l) :
    splitCharCL sep l = [l] := by
  induction l with
  | nil => rfl
  | cons c cs ih =>
    rw [List.mem_cons, not_or] at h
    have hc : (c == sep) = false := by
      rw [beq_eq_false_iff_ne]
      exact fun e => h.1 e.symm
    simp [splitCharCL, hc, ih h.2]

theorem splitCharCL_append (sep : Char) (l1 l2 : List Char) (h : sep ∉ l1) :
    splitCharCL sep (l1 ++ sep :: l2) = l1 :: splitCharCL sep l2 := by
  induction l1 with
  | nil => simp [splitCharCL]
  | cons c cs ih =>
    rw [List.mem_cons, not_or] at h
    have hc : (c == sep) = false := by
      rw [beq_eq_false_iff_ne]
      exact fun e => h.1 e.symm
    simp [splitCharCL, hc, ih h.2]

set_option maxHeartbeats 1000000 in
set_option maxRecDepth 10000 in
theorem parseOctet_toString :
    ∀ n : Nat, n < 256 →
      parseOctet (toString n) = some n ∧ '.' ∉ (toString n).toList := by
  decide

/-- All four octets in range, as produced by `parseIPv4` and by the pool
construction. -/
def wfIPv4 (ip : IPv4) : Prop :=
  ip.o1 ≤ 255 ∧ ip.o2 ≤ 255 ∧ ip.o3 ≤ 255 ∧ ip.o4 ≤ 255

theorem parseOctet_mk_toList (s : String) : parseOctet ⟨s.toList⟩ = parseOctet s := rfl

theorem parseIPv4_renderIPv4 (ip : IPv4) (h : wfIPv4 ip) :
    parseIPv4 (renderIPv4 ip) = some ip := by
  obtain ⟨h1, h2, h3, h4⟩ := h
  obtain ⟨p1, d1⟩ := parseOctet_toString ip.o1 (Nat.lt_succ_of_le h1)
  obtain ⟨p2, d2⟩ := parseOctet_toString ip.o2 (Nat.lt_succ_of_le h2)
  obtain ⟨p3, d3⟩ := parseOctet_toString ip.o3 (Nat.lt_succ_of_le h3)
  obtain ⟨p4, d4⟩ := parseOctet_toString ip.o4 (Nat.lt_succ_of_le h4)
  have hsplit : (renderIPv4 ip).toList
      = (toString ip.o1).toList ++ '.' ::
        ((toString ip.o2).toList ++ '.' ::
          ((toString ip.o3).toList ++ '.' :: (toString ip.o4).toList)) := by
    show (renderIPv4 ip).data = _
    simp [renderIPv4, String.data_append]
  rw [parseIPv4, pySplit, hsplit,
    splitCharCL_append '.' _ _ d1, splitCharCL_append '.' _ _ d2,
    splitCharCL_append '.' _ _ d3, splitCharCL_not_mem '.' _ d4]
  simp only [List.map]
  rw [parseOctet_mk_toList, parseOctet_mk_toList, parseOctet_mk_toList,
    parseOctet_mk_toList, p1, p2, p3, p4]

/-! ### Supporting lemmas: the allocation scan -/

theorem parseOctet_le (s : String) (n : Nat) (h : parseOctet s = some n) :
    n ≤ 255 := by
  simp only [parseOctet] at h
  split_ifs at h with h1 h2 h3 h4
  cases h
  exact h4

theorem parseIPv4_wf (s : String) (a : IPv4) (h : parseIPv4 s = some a) :
    wfIPv4 a := by
  unfold parseIPv4 at h
  split at h
  · rename_i l1 l2 l3 l4 heq
    split at h
    · rename_i x y z w h1 h2 h3 h4
      cases h
      exact ⟨parseOctet_le _ _ h1, parseOctet_le _ _ h2,
        parseOctet_le _ _ h3, parseOctet_le _ _ h4⟩
    · exact absurd h (by simp)
  · exact absurd h (by simp)

theorem mem_hostsOfBlock (x : Nat) (ip : IPv4) :
    ip ∈ hostsOfBlock x ↔
      ip.o1 = 10 ∧ ip.o2 = 8 ∧ ip.o3 = x ∧ 1 ≤ ip.o4 ∧ ip.o4 < 255 := by
  cases ip with
  | mk a b c d =>
    simp only [hostsOfBlock, List.mem_map, List.mem_range'_1]
    constructor
    · rintro ⟨e, ⟨he1, he2⟩, heq⟩
      cases heq
      exact ⟨rfl, rfl, rfl, he1, he2⟩
    · rintro ⟨rfl, rfl, rfl, hd1, hd2⟩
      exact ⟨d, ⟨hd1, hd2⟩, rfl⟩

theorem mem_poolHosts (t : ProfileType) (ip : IPv4) :
    ip ∈ poolHosts t ↔
      ip.o1 = 10 ∧ ip.o2 = 8 ∧ ip.o3 ∈ poolNetworks t ∧
        1 ≤ ip.o4 ∧ ip.o4 < 255 := by
  simp only [poolHosts, List.mem_flatMap, mem_hostsOfBlock]
  constructor
  · rintro ⟨x, hx, h1, h2, rfl, h4, h5⟩
    exact ⟨h1, h2, hx, h4, h5⟩
  · rintro ⟨h1, h2, hx, h4, h5⟩
    exact ⟨ip.o3, hx, h1, h2, rfl, h4, h5⟩

theorem poolHosts_wf (t : ProfileType) (ip : IPv4) (h : ip ∈ poolHosts t) :
    wfIPv4 ip := by
  rw [mem_poolHosts] at h
  obtain ⟨h1, h2, h3, h4, h5⟩ := h
  have ho3 : ip.o3 ≤ 255 := by
    cases t <;> simp only [poolNetworks, List.mem_range'_1] at h3 <;> omega
  exact ⟨by omega, by omega, ho3, by omega⟩

theorem findFreeIp_some (db : List String) (used pool : List IPv4)
    (ip : IPv4) (h : findFreeIp db used pool = some ip) :
    ip ∈ pool ∧ ip ∉ used ∧ renderIPv4 ip ∉ db := by
  induction pool with
  | nil => exact absurd h (by simp [findFreeIp])
  | cons p ps ih =>
    by_cases h1 : p ∈ used
    · rw [findFreeIp, if_pos h1] at h
      obtain ⟨m, hu, hd⟩ := ih h
      exact ⟨List.mem_cons_of_mem _ m, hu, hd⟩
    · by_cases h2 : renderIPv4 p ∈ db
      · rw [findFreeIp, if_neg h1, if_pos h2] at h
        obtain ⟨m, hu, hd⟩ := ih h
        exact ⟨List.mem_cons_of_mem _ m, hu, hd⟩
      · rw [findFreeIp, if_neg h1, if_neg h2] at h
        cases h
        exact ⟨List.mem_cons_self _ _, h1, h2⟩

theorem findFreeIp_none (db : List String) (used pool : List IPv4) :
    findFreeIp db used pool = none ↔
      ∀ ip ∈ pool, ip ∈ used ∨ renderIPv4 ip ∈ db := by
  induction pool with
  | nil => simp [findFreeIp]
  | cons p ps ih =>
    by_cases h1 : p ∈ used
    · rw [findFreeIp, if_pos h1, ih]
      simp [h1]
    · by_cases h2 : renderIPv4 p ∈ db
      · rw [findFreeIp, if_neg h1, if_pos h2, ih]
        simp [h2]
      · rw [findFreeIp, if_neg h1, if_neg h2]
        simp [h1, h2]

theorem findFreeIp_db_append (db junk : List String) (used pool : List IPv4)
    (h : ∀ ip ∈ pool, renderIPv4 ip ∉ junk) :
    findFreeIp (db ++ junk) used pool = findFreeIp db used pool := by
  induction pool with
  | nil => rfl
  | cons p ps ih =>
    have hp : renderIPv4 p ∈ db ++ junk ↔ renderIPv4 p ∈ db := by
      rw [List.mem_append]
      exact or_iff_left (h p (List.mem_cons_self _ _))
    have ih' := ih (fun ip hip => h ip (List.mem_cons_of_mem _ hip))
    by_cases h1 : p ∈ used
    · rw [findFreeIp, if_pos h1, findFreeIp, if_pos h1, ih']
    · by_cases h2 : renderIPv4 p ∈ db
      · rw [findFreeIp, if_neg h1, if_pos (hp.mpr h2),
          findFreeIp, if_neg h1, if_pos h2, ih']
      · rw [findFreeIp, if_neg h1, if_neg (fun c => h2 (hp.mp c)),
          findFreeIp, if_neg h1, if_neg h2]

theorem extractUsedIPs_ok (lines : List String)
    (h : ∀ l ∈ lines, pyStartsWith (pyStrip l) "AllowedIPs" = true →
      2 ≤ (pySplit '=' l).length) :
    ∃ us, extractUsedIPs lines = .ok us := by
  induction lines with
  | nil => exact ⟨[], rfl⟩
  | cons l ls ih =>
    obtain ⟨us, hus⟩ := ih (fun x hx => h x (List.mem_cons_of_mem _ hx))
    by_cases hl : pyStartsWith (pyStrip l) "AllowedIPs" = true
    · have hlen := h l (List.mem_cons_self _ _) hl
      have : (pySplit '=' l).get? 1 ≠ none := fun hc => by
        rw [List.get?_eq_none] at hc
        omega
      obtain ⟨part, hpart⟩ := Option.ne_none_iff_exists'.mp this
      refine ⟨(pySplit '/' (pyStrip part)).headD "" :: us, ?_⟩
      rw [extractUsedIPs, if_pos hl, hpart, hus]
    · refine ⟨us, ?_⟩
      rw [extractUsedIPs, if_neg hl]
      exact hus

theorem getNextIpFrom_some (db us : List String) (t : ProfileType)
    (ip : IPv4) (h : getNextIpFrom db us t = some ip) :
    ip ∈ poolHosts t ∧ ip ∉ usedIpObjects (db ++ us) ∧
      renderIPv4 ip ∉ db :=
  findFreeIp_some _ _ _ _ h

theorem get_next_ip_some_cfg (db cfgLines cfgIPs : List String)
    (t : ProfileType) (s : String)
    (hex : extractUsedIPs cfgLines = .ok cfgIPs)
    (h : get_next_ip db (some cfgLines) t = .ok (some s)) :
    ∃ ip, getNextIpFrom db cfgIPs t = some ip ∧ s = renderIPv4 ip := by
  simp only [get_next_ip, hex] at h
  cases hg : getNextIpFrom db cfgIPs t with
  | none => rw [hg] at h; exact absurd h (by simp)
  | some ip =>
    rw [hg] at h
    refine ⟨ip, rfl, ?_⟩
    simpa using h.symm

theorem get_next_ip_not_in_db (db : List String)
    (cfg : Option (List String)) (t : ProfileType) (s : String)
    (h : get_next_ip db cfg t = .ok (some s)) : s ∉ db := by
  cases cfg with
  | none =>
    simp only [get_next_ip] at h
    cases hg : getNextIpFrom db [] t with
    | none => rw [hg] at h; exact absurd h (by simp)
    | some ip =>
      rw [hg] at h
      have hs : s = renderIPv4 ip := by simpa using h.symm
      exact hs ▸ (getNextIpFrom_some _ _ _ _ hg).2.2
  | some lines =>
    cases hex : extractUsedIPs lines with
    | error e =>
      simp only [get_next_ip, hex] at h
      exact absurd h (by simp)
    | ok cfgIPs =>
      obtain ⟨ip, hg, hs⟩ := get_next_ip_some_cfg _ _ _ _ _ hex h
      exact hs ▸ (getNextIpFrom_some _ _ _ _ hg).2.2

theorem allocateSeq_not_mem (cfg : Option (List String)) (t : ProfileType) :
    ∀ (n : Nat) (db : List String) (s : String),
      s ∈ allocateSeq cfg t n db → s ∉ db := by
  intro n
  induction n with
  | zero => intro db s hs; exact absurd hs (by simp [allocateSeq])
  | succ m ih =>
    intro db s hs hdb
    rw [allocateSeq] at hs
    cases hg : get_next_ip db cfg t with
    | error e => rw [hg] at hs; exact absurd hs (by simp)
    | ok o =>
      cases o with
      | none => rw [hg] at hs; exact absurd hs (by simp)
      | some s0 =>
        rw [hg] at hs
        rcases List.mem_cons.mp hs with rfl | h2
        · exact get_next_ip_not_in_db _ _ _ _ hg hdb
        · exact ih (s0 :: db) s h2 (List.mem_cons_of_mem _ hdb)

theorem allocateSeq_nodup (cfg : Option (List String)) (t : ProfileType) :
    ∀ (n : Nat) (db : List String), (allocateSeq cfg t n db).Nodup := by
  intro n
  induction n with
  | zero => intro db; simp [allocateSeq]
  | succ m ih =>
    intro db
    rw [allocateSeq]
    cases hg : get_next_ip db cfg t with
    | error e => simp
    | ok o =>
      cases o with
      | none => simp
      | some s0 =>
        refine List.nodup_cons.mpr ⟨?_, ih (s0 :: db)⟩
        intro hmem
        exact allocateSeq_not_mem cfg t m (s0 :: db) s0 hmem
          (List.mem_cons_self _ _)

/-! ### Supporting lemmas: the peer-removal filter -/

theorem foldl_processLine_preamble (pk : String) (P : List String)
    (hP : ∀ l ∈ P, wfPreambleLine l) (N : List String) (r : Bool) :
    P.foldl (processLine pk) ⟨N, false, r, [], false⟩
      = ⟨N ++ P, false, r, [], false⟩ := by
  induction P generalizing N with
  | nil => simp
  | cons l ls ih =>
    have hl : pyStartsWith (pyStrip l) "[Peer]" = false :=
      hP l (List.mem_cons_self _ _)
    rw [List.foldl_cons]
    have step : processLine pk ⟨N, false, r, [], false⟩ l
        = ⟨N ++ [l], false, r, [], false⟩ := by
      simp [processLine, hl]
    rw [step, ih (fun x hx => hP x (List.mem_cons_of_mem _ hx))]
    simp

theorem foldl_processLine_body (pk : String) (body : List String)
    (hb : ∀ l ∈ body, wfBodyLine l) (N cur : List String) (r sk : Bool) :
    body.foldl (processLine pk) ⟨N, true, r, cur, sk⟩
      = ⟨N, true,
         r || body.any
           (fun l => pyStartsWith (pyStrip l) "PublicKey" && strContains l pk),
         cur ++ body,
         sk || body.any
           (fun l => pyStartsWith (pyStrip l) "PublicKey" && strContains l pk)⟩ := by
  induction body generalizing N cur r sk with
  | nil => simp
  | cons l ls ih =>
    obtain ⟨w1, w2, w3⟩ := hb l (List.mem_cons_self _ _)
    have hne : (pyStrip l == "") = false := beq_eq_false_iff_ne.mpr w1
    rw [List.foldl_cons]
    have step : processLine pk ⟨N, true, r, cur, sk⟩ l
        = ⟨N, true,
           r || (pyStartsWith (pyStrip l) "PublicKey" && strContains l pk),
           cur ++ [l],
           sk || (pyStartsWith (pyStrip l) "PublicKey" && strContains l pk)⟩ := by
      cases hm : (pyStartsWith (pyStrip l) "PublicKey" && strContains l pk) <;>
        simp [processLine, w2, w3, hne, hm]
    rw [step, ih (fun x hx => hb x (List.mem_cons_of_mem _ hx))]
    simp [Bool.or_assoc]

theorem processLine_blank (pk : String) (N cur : List String) (r sk : Bool) :
    processLine pk ⟨N, true, r, cur, sk⟩ ""
      = ⟨N ++ (if sk then [] else cur ++ [""]), false, r, [], false⟩ := by
  cases sk <;> rfl

theorem foldl_processLine_stanza (pk : String) (s : PeerStanza)
    (hs : wfStanza s) (N : List String) (r : Bool) :
    (renderStanza s).foldl (processLine pk) ⟨N, false, r, [], false⟩
      = ⟨N ++ (if stanzaMatches pk s then [] else renderStanza s), false,
         r || stanzaMatches pk s, [], false⟩ := by
  obtain ⟨hh, hb⟩ := hs
  rw [renderStanza, List.foldl_cons]
  have hstep : processLine pk ⟨N, false, r, [], false⟩ s.header
      = ⟨N, true, r, [s.header], false⟩ := by
    simp [processLine, hh]
  rw [hstep, List.foldl_append, foldl_processLine_body pk s.body hb,
    List.foldl_cons, List.foldl_nil, processLine_blank]
  cases hm : s.body.any
      (fun l => pyStartsWith (pyStrip l) "PublicKey" && strContains l pk) <;>
    simp [stanzaMatches, hm, renderStanza]

theorem foldl_processLine_stanzas (pk : String) (ss : List PeerStanza)
    (hss : ∀ s ∈ ss, wfStanza s) (N : List String) (r : Bool) :
    (ss.flatMap renderStanza).foldl (processLine pk) ⟨N, false, r, [], false⟩
      = ⟨N ++ (ss.filter (fun s => !stanzaMatches pk s)).flatMap renderStanza,
         false, r || ss.any (stanzaMatches pk), [], false⟩ := by
  induction ss generalizing N r with
  | nil => simp
  | cons s ssr ih =>
    rw [List.flatMap_cons, List.foldl_append,
      foldl_processLine_stanza pk s (hss s (List.mem_cons_self _ _)),
      ih (fun x hx => hss x (List.mem_cons_of_mem _ hx))]
    by_cases hm : stanzaMatches pk s = true <;>
      simp [hm, List.filter_cons, Bool.or_assoc]

/-- The peer-removal filter on a well-formed document (preamble lines
followed by blank-line-terminated stanzas): it keeps the preamble, drops
every stanza whose `PublicKey` line contains `pk` as a substring, keeps
all other stanzas in order, and reports failure iff no stanza matched. -/
theorem removePeerLines_spec (pk : String) (P : List String)
    (ss : List PeerStanza) (hP : ∀ l ∈ P, wfPreambleLine l)
    (hss : ∀ s ∈ ss, wfStanza s) :
    removePeerLines pk (P ++ ss.flatMap renderStanza)
      = if ss.any (stanzaMatches pk) then
          some (P ++ (ss.filter (fun s => !stanzaMatches pk s)).flatMap
            renderStanza)
        else none := by
  rw [removePeerLines]
  have h0 : initRemoveState = ⟨[], false, false, [], false⟩ := rfl
  rw [h0, List.foldl_append, foldl_processLine_preamble pk P hP,
    foldl_processLine_stanzas pk ss hss]
  simp

/-! ### Claim theorems -/

/-- C1: within one category, successive successful `allocate` calls,
each followed by its commit of the returned address (an `is_active = 1`
row insert), return pairwise-distinct addresses; equivalently,
`get_next_ip` never returns an address already recorded as active in the
database (`s ∉ db`) nor one already present among the artifact's
harvested `AllowedIPs` strings (`s ∉ cfgIPs`). -/
theorem no_double_allocation :
    (∀ (cfg : Option (List String)) (t : ProfileType) (n : Nat)
        (db : List String), (allocateSeq cfg t n db).Nodup) ∧
    (∀ (db cfgLines cfgIPs : List String) (t : ProfileType) (s : String),
        extractUsedIPs cfgLines = .ok cfgIPs →
        get_next_ip db (some cfgLines) t = .ok (some s) →
        s ∉ db ∧ s ∉ cfgIPs) := by
  constructor
  · exact fun cfg t n db => allocateSeq_nodup cfg t n db
  · intro db cfgLines cfgIPs t s hex h
    obtain ⟨ip, hg, rfl⟩ := get_next_ip_some_cfg _ _ _ _ _ hex h
    obtain ⟨hpool, hused, hdb⟩ := getNextIpFrom_some _ _ _ _ hg
    refine ⟨hdb, fun hmem => hused ?_⟩
    exact List.mem_filterMap.mpr
      ⟨renderIPv4 ip, List.mem_append_right _ hmem,
        parseIPv4_renderIPv4 ip (poolHosts_wf t ip hpool)⟩

/-- Witness for C1 at a concrete input. -/
theorem no_double_allocation_witness :
    (allocateSeq (some []) .website 3 []).Nodup ∧
    (extractUsedIPs ["AllowedIPs = 10.8.10.1/32"] = .ok ["10.8.10.1"] ∧
      get_next_ip [] (some ["AllowedIPs = 10.8.10.1/32"]) .website
        = .ok (some "10.8.10.2") ∧
      ("10.8.10.2" ∉ ([] : List String) ∧ "10.8.10.2" ∉ ["10.8.10.1"])) :=
  ⟨no_double_allocation.1 (some []) .website 3 [],
   rfl, rfl,
   no_double_allocation.2 [] ["AllowedIPs = 10.8.10.1/32"] ["10.8.10.1"]
     .website "10.8.10.2" rfl rfl⟩

/-- C2: an address that appears in an `AllowedIPs` directive of the
artifact (a harvested string `u` parsing to address `a`) but has no
active database record is never returned by `allocate`; concretely, with
`AllowedIPs = 10.8.10.1/32` in the artifact and an empty database, the
allocator skips `10.8.10.1` and returns `10.8.10.2`. -/
theorem allocator_skips_artifact_address
    (db cfgLines cfgIPs : List String) (t : ProfileType) (u : String)
    (a : IPv4) (hex : extractUsedIPs cfgLines = .ok cfgIPs)
    (hu : u ∈ cfgIPs) (hpar : parseIPv4 u = some a)
    (hnodb : renderIPv4 a ∉ db) :
    get_next_ip db (some cfgLines) t ≠ .ok (some (renderIPv4 a)) ∧
    get_next_ip [] (some ["AllowedIPs = 10.8.10.1/32"]) .website
      = .ok (some "10.8.10.2") := by
  refine ⟨fun h => ?_, rfl⟩
  obtain ⟨ip, hg, hs⟩ := get_next_ip_some_cfg _ _ _ _ _ hex h
  obtain ⟨hpool, hused, hdb⟩ := getNextIpFrom_some _ _ _ _ hg
  have hip : parseIPv4 (renderIPv4 ip) = some ip :=
    parseIPv4_renderIPv4 ip (poolHosts_wf t ip hpool)
  have ha : parseIPv4 (renderIPv4 a) = some a :=
    parseIPv4_renderIPv4 a (parseIPv4_wf u a hpar)
  rw [hs, hip] at ha
  apply hused
  rw [Option.some.inj ha]
  exact List.mem_filterMap.mpr ⟨u, List.mem_append_right _ hu, hpar⟩

/-- Witness for C2 at a concrete input. -/
theorem allocator_skips_artifact_address_witness :
    (extractUsedIPs ["AllowedIPs = 10.8.10.1/32"] = .ok ["10.8.10.1"] ∧
      "10.8.10.1" ∈ ["10.8.10.1"] ∧
      parseIPv4 "10.8.10.1" = some ⟨10, 8, 10, 1⟩ ∧
      renderIPv4 ⟨10, 8, 10, 1⟩ ∉ ([] : List String)) ∧
    get_next_ip [] (some ["AllowedIPs = 10.8.10.1/32"]) .website
      ≠ .ok (some (renderIPv4 ⟨10, 8, 10, 1⟩)) :=
  ⟨⟨rfl, List.mem_singleton.mpr rfl, rfl, List.not_mem_nil _⟩,
   (allocator_skips_artifact_address [] ["AllowedIPs = 10.8.10.1/32"]
      ["10.8.10.1"] .website "10.8.10.1" ⟨10, 8, 10, 1⟩ rfl
      (List.mem_singleton.mpr rfl) rfl (List.not_mem_nil _)).1⟩

/-- C3 counterexample: on a concrete successful call,
`add_peer_to_server`'s file-operation trace contains an in-place append
to the live artifact file and contains neither a temporary-file write
nor a rename/replace, refuting the claim that add persists via a
temporary path and never edits the live file in place. -/
theorem add_peer_in_place_counterexample :
    ((add_peer_to_server true "PK" "10.8.10.1" "alice").2.any
        (fun op => match op with
          | FileOp.appendLive _ => true
          | _ => false) = true) ∧
    ((add_peer_to_server true "PK" "10.8.10.1" "alice").2.all
        (fun op => match op with
          | FileOp.writeTemp _ => false
          | FileOp.replaceLive => false
          | _ => true) = true) :=
  ⟨rfl, rfl⟩

/-- C3 amended: the add-peer operation does not write to a temporary
path at all; when the artifact exists it appends the peer stanza text
directly to the live artifact file (a shell `echo ... >>` append, so the
live file is edited in place) and then signals the daemon reload. -/
theorem add_peer_appends_in_place
    (public_key ip_address profile_name : String) :
    add_peer_to_server true public_key ip_address profile_name
      = (true,
         [FileOp.appendLive
            (peerConfigText public_key ip_address profile_name ++ "\n"),
          FileOp.reloadCmd]) := rfl

/-- C4 counterexample: with two stanzas whose `PublicKey` both equal the
target, the claim says only the first is dropped and the second is
preserved; the code drops both, leaving an empty document. -/
theorem remove_peer_duplicates_counterexample :
    removePeerLines "AAA"
      ["[Peer]", "PublicKey = AAA", "AllowedIPs = 10.8.10.1/32", "",
       "[Peer]", "PublicKey = AAA", "AllowedIPs = 10.8.10.2/32", ""]
      = some [] := rfl

/-- C4 amended: remove drops every stanza whose `PublicKey` directive
line contains the target key as a substring (all matches, not only the
first; containment, not exact equality); every stanza without such a
line is preserved with its content and relative order intact, and the
operation fails when no stanza matches. -/
theorem remove_peer_filters_matching_stanzas (pk : String)
    (P : List String) (ss : List PeerStanza)
    (hP : ∀ l ∈ P, wfPreambleLine l) (hss : ∀ s ∈ ss, wfStanza s) :
    removePeerLines pk (P ++ ss.flatMap renderStanza)
      = if ss.any (stanzaMatches pk) then
          some (P ++ (ss.filter (fun s => !stanzaMatches pk s)).flatMap
            renderStanza)
        else none :=
  removePeerLines_spec pk P ss hP hss

/-- Witness for the amended C4 at a concrete input. -/
theorem remove_peer_filters_matching_stanzas_witness :
    (∀ l ∈ ["[Interface]"], wfPreambleLine l) ∧
    (∀ s ∈ [PeerStanza.mk "[Peer]" ["PublicKey = AAA"],
            PeerStanza.mk "[Peer]" ["PublicKey = BBB"]], wfStanza s) ∧
    removePeerLines "AAA"
        (["[Interface]"] ++
          [PeerStanza.mk "[Peer]" ["PublicKey = AAA"],
           PeerStanza.mk "[Peer]" ["PublicKey = BBB"]].flatMap renderStanza)
      = if [PeerStanza.mk "[Peer]" ["PublicKey = AAA"],
            PeerStanza.mk "[Peer]" ["PublicKey = BBB"]].any
              (stanzaMatches "AAA") then
          some (["[Interface]"] ++
            ([PeerStanza.mk "[Peer]" ["PublicKey = AAA"],
              PeerStanza.mk "[Peer]" ["PublicKey = BBB"]].filter
                (fun s => !stanzaMatches "AAA" s)).flatMap renderStanza)
        else none :=
  ⟨by decide, by decide,
   remove_peer_filters_matching_stanzas "AAA" ["[Interface]"]
     [PeerStanza.mk "[Peer]" ["PublicKey = AAA"],
      PeerStanza.mk "[Peer]" ["PublicKey = BBB"]]
     (by decide) (by decide)⟩

/-- C5 counterexample: with target key `AAA` and a single stanza whose
`PublicKey` is `XAAAX` — so no stanza's publicKey exactly equals the
target — the claim says remove fails with `PeerNotFound` and performs
no write; instead the substring containment test at line 162 fires, the
stanza is dropped, and the temp-file write, the `cp` over the live
artifact and the `chmod` are all performed (the function returns
`True`). -/
theorem remove_peer_not_equal_still_removes_counterexample :
    removePeerLines "AAA" ["[Peer]", "PublicKey = XAAAX", ""]
      = some [] ∧
    remove_peer_from_server true "AAA" ["[Peer]", "PublicKey = XAAAX", ""]
      = (true,
         [FileOp.writeTemp [], FileOp.replaceLive, FileOp.chmodLive]) :=
  ⟨rfl, rfl⟩

/-- C5 amended: when no stanza of the document has a `PublicKey` line
containing the target key as a substring (the code's actual match test;
in particular this covers every document in which the key simply does
not occur), remove reports failure (Python returns `False` —
`PeerNotFound`) and performs no file operation at all: the artifact is
left byte-for-byte unchanged. -/
theorem remove_peer_not_found_no_write (pk : String) (P : List String)
    (ss : List PeerStanza) (hP : ∀ l ∈ P, wfPreambleLine l)
    (hss : ∀ s ∈ ss, wfStanza s)
    (hnone : ∀ s ∈ ss, stanzaMatches pk s = false) :
    removePeerLines pk (P ++ ss.flatMap renderStanza) = none ∧
    remove_peer_from_server true pk (P ++ ss.flatMap renderStanza)
      = (false, []) := by
  have hany : ss.any (stanzaMatches pk) = false := by
    rw [List.any_eq_false]
    intro s hs
    simp [hnone s hs]
  have h1 : removePeerLines pk (P ++ ss.flatMap renderStanza) = none := by
    rw [removePeerLines_spec pk P ss hP hss, hany]
    simp
  refine ⟨h1, ?_⟩
  simp [remove_peer_from_server, h1]

/-- Witness for the amended C5 at a concrete input. -/
theorem remove_peer_not_found_no_write_witness :
    (∀ s ∈ [PeerStanza.mk "[Peer]" ["PublicKey = BBB"]],
        stanzaMatches "AAA" s = false) ∧
    removePeerLines "AAA"
        ([] ++ [PeerStanza.mk "[Peer]" ["PublicKey = BBB"]].flatMap
          renderStanza) = none ∧
    remove_peer_from_server true "AAA"
        ([] ++ [PeerStanza.mk "[Peer]" ["PublicKey = BBB"]].flatMap
          renderStanza) = (false, []) :=
  ⟨by decide,
   remove_peer_not_found_no_write "AAA" []
     [PeerStanza.mk "[Peer]" ["PublicKey = BBB"]]
     (by simp) (by decide) (by decide)⟩

/-- C6: `get_next_ip` returns the no-result outcome (`None`, i.e.
`NoAddressAvailable`) if and only if every pool candidate of the
category is excluded, either by the reconciled usage view (the parsed
union of active database addresses and artifact addresses) or by the
narrow active-record re-check; contrapositively, whenever some pool
address is free it returns an address. -/
theorem allocator_exhaustion_iff (db cfgLines cfgIPs : List String)
    (t : ProfileType) (hex : extractUsedIPs cfgLines = .ok cfgIPs) :
    (get_next_ip db (some cfgLines) t = .ok none ↔
      ∀ ip ∈ poolHosts t,
        ip ∈ usedIpObjects (db ++ cfgIPs) ∨ renderIPv4 ip ∈ db) := by
  simp only [get_next_ip, hex, Except.ok.injEq, Option.map_eq_none']
  exact findFreeIp_none db (usedIpObjects (db ++ cfgIPs)) (poolHosts t)

/-- Witness for C6 at a concrete input. -/
theorem allocator_exhaustion_iff_witness :
    extractUsedIPs [] = .ok [] ∧
    (get_next_ip ["10.8.10.1"] (some []) .website = .ok none ↔
      ∀ ip ∈ poolHosts .website,
        ip ∈ usedIpObjects (["10.8.10.1"] ++ []) ∨
          renderIPv4 ip ∈ ["10.8.10.1"]) :=
  ⟨rfl, allocator_exhaustion_iff ["10.8.10.1"] [] [] .website rfl⟩

/-- C7: with an empty database and an empty artifact document,
allocation for the `website` category returns exactly `10.8.10.1`; the
scan order indeed starts at `10.8.10.1` (the first host of the first
`/24` block), and the block's network (`10.8.10.0`) and broadcast
(`10.8.10.255`) addresses are not in the pool. -/
theorem first_allocation_is_first_host :
    get_next_ip [] (some []) .website = .ok (some "10.8.10.1") ∧
    (poolHosts .website).head? = some ⟨10, 8, 10, 1⟩ ∧
    (⟨10, 8, 10, 0⟩ : IPv4) ∉ poolHosts .website ∧
    (⟨10, 8, 10, 255⟩ : IPv4) ∉ poolHosts .website := by
  refine ⟨rfl, rfl, ?_, ?_⟩ <;> rw [mem_poolHosts] <;> simp

/-- C8: the two category pools are entirely disjoint — no address of the
`website` pool (`10.8.10.0/24 .. 10.8.25.0/24`) occurs in the `personal`
pool (`10.8.100.0/24 .. 10.8.255.0/24`), and vice versa. -/
theorem pools_disjoint :
    (∀ ip ∈ poolHosts .website, ip ∉ poolHosts .personal) ∧
    (∀ ip ∈ poolHosts .personal, ip ∉ poolHosts .website) := by
  constructor <;> intro ip h1 h2 <;>
    rw [mem_poolHosts] at h1 h2 <;>
    obtain ⟨-, -, h3, -, -⟩ := h1 <;> obtain ⟨-, -, h4, -, -⟩ := h2 <;>
    simp only [poolNetworks, List.mem_range'_1] at h3 h4 <;> omega

/-- Witness for C8 at a concrete input. -/
theorem pools_disjoint_witness :
    (⟨10, 8, 10, 1⟩ : IPv4) ∈ poolHosts .website ∧
    (⟨10, 8, 10, 1⟩ : IPv4) ∉ poolHosts .personal :=
  ⟨by decide, pools_disjoint.1 _ (by decide)⟩

/-- C9: the generated client configuration depends only on the private
key and allocated address (and the fixed server constants): the
`profile_name` and `profile_type` parameters do not flow into the
emitted text. -/
theorem config_independent_of_profile_fields
    (serverIp serverPort serverPubKey name1 type1 name2 type2
      private_key ip_address : String) :
    generate_wireguard_config serverIp serverPort serverPubKey
        name1 type1 private_key ip_address
      = generate_wireguard_config serverIp serverPort serverPubKey
          name2 type2 private_key ip_address := rfl

/-- C10 counterexample: `get_next_ip` is not total over all artifact
states — an artifact line `AllowedIPs` with no `=` raises an uncaught
`IndexError` (modelled `Except.error ()`), aborting allocation. -/
theorem get_next_ip_malformed_line_counterexample :
    get_next_ip [] (some ["AllowedIPs"]) .website = .error () := rfl

/-- C10 amended: provided every `AllowedIPs` line of the artifact
contains an `=` (so that harvesting cannot raise), `get_next_ip` is
total, and any used-address string — whether an active database row or a
string harvested from an artifact `AllowedIPs` line — that does not
parse as an IP address is silently skipped: it neither aborts allocation
nor blocks any pool candidate (the outcome is unchanged when such
strings are added on either side). -/
theorem malformed_entries_skipped (db junk cfgLines cfgIPs : List String)
    (t : ProfileType)
    (hwf : ∀ l ∈ cfgLines, pyStartsWith (pyStrip l) "AllowedIPs" = true →
      2 ≤ (pySplit '=' l).length)
    (hex : extractUsedIPs cfgLines = .ok cfgIPs)
    (hjunk : ∀ j ∈ junk, parseIPv4 j = none) :
    (∃ r, get_next_ip db (some cfgLines) t = .ok r) ∧
    get_next_ip (db ++ junk) (some cfgLines) t
      = get_next_ip db (some cfgLines) t ∧
    getNextIpFrom db (cfgIPs ++ junk) t = getNextIpFrom db cfgIPs t := by
  have hjnil : junk.filterMap parseIPv4 = [] :=
    List.filterMap_eq_nil_iff.mpr hjunk
  have hnojunk : ∀ ip ∈ poolHosts t, renderIPv4 ip ∉ junk := by
    intro ip hip hmem2
    have hj := hjunk _ hmem2
    rw [parseIPv4_renderIPv4 ip (poolHosts_wf t ip hip)] at hj
    exact absurd hj (by simp)
  have e1 : getNextIpFrom (db ++ junk) cfgIPs t
      = getNextIpFrom db cfgIPs t := by
    unfold getNextIpFrom
    have hu : usedIpObjects ((db ++ junk) ++ cfgIPs)
        = usedIpObjects (db ++ cfgIPs) := by
      simp [usedIpObjects, hjnil]
    rw [hu, findFreeIp_db_append db junk _ _ hnojunk]
  have e2 : getNextIpFrom db (cfgIPs ++ junk) t
      = getNextIpFrom db cfgIPs t := by
    unfold getNextIpFrom
    have hu : usedIpObjects (db ++ (cfgIPs ++ junk))
        = usedIpObjects (db ++ cfgIPs) := by
      simp [usedIpObjects, hjnil]
    rw [hu]
  refine ⟨⟨(getNextIpFrom db cfgIPs t).map renderIPv4,
    by simp only [get_next_ip, hex]⟩, ?_, e2⟩
  simp only [get_next_ip, hex, e1]

/-- Witness for the amended C10 at a concrete input. -/
theorem malformed_entries_skipped_witness :
    (∀ l ∈ ["AllowedIPs = garbage/32"],
        pyStartsWith (pyStrip l) "AllowedIPs" = true →
          2 ≤ (pySplit '=' l).length) ∧
    extractUsedIPs ["AllowedIPs = garbage/32"] = .ok ["garbage"] ∧
    (∀ j ∈ ["garbage", "not-an-ip"], parseIPv4 j = none) ∧
    ((∃ r, get_next_ip [] (some ["AllowedIPs = garbage/32"]) .website
        = .ok r) ∧
      get_next_ip ([] ++ ["garbage", "not-an-ip"])
          (some ["AllowedIPs = garbage/32"]) .website
        = get_next_ip [] (some ["AllowedIPs = garbage/32"]) .website ∧
      getNextIpFrom [] (["garbage"] ++ ["garbage", "not-an-ip"]) .website
        = getNextIpFrom [] ["garbage"] .website) :=
  ⟨by decide, rfl, by decide,
   malformed_entries_skipped [] ["garbage", "not-an-ip"]
     ["AllowedIPs = garbage/32"] ["garbage"] .website (by decide) rfl
     (by decide)⟩
